import Mathlib

/-!
Verification of the `zip_latest` stream adapter
(`src/futures-util/src/stream/zip_latest.rs`).

The adapter merges two streams into a stream of pairs, each pair combining
the latest value seen from each side.  A stream is embedded as the list of
poll events its underlying source will produce, in order: a new item, a
"not ready" (pending) signal, or a failure.  When the list is exhausted the
source signals completion.  This matches the test harness of the source
file (`stream_from_poll_iter`, `iter_ok`, `iter_result`), where a stream is
built from exactly such a list.
-/

/-- One poll event of an underlying source: a new item, a transient
"not ready" signal, or a failure carrying an error value. -/
inductive PEvent (α ε : Type) where
  | item : α → PEvent α ε
  | pending : PEvent α ε
  | failure : ε → PEvent α ε
deriving DecidableEq

/-- Readiness outcome of one poll, mirroring `futures_core::Async`:
`ready x` or `pending`. -/
inductive Async (α : Type) where
  | ready : α → Async α
  | pending : Async α
deriving DecidableEq

/-- Poll an underlying source given as its remaining event list: the head
event is consumed and translated; an exhausted list signals completion
(`ready none`) and stays exhausted. -/
def pollList {α ε : Type} :
    List (PEvent α ε) → Except ε (Async (Option α)) × List (PEvent α ε)
  | [] => (Except.ok (Async.ready none), [])
  | PEvent.item a :: rest => (Except.ok (Async.ready (some a)), rest)
  | PEvent.pending :: rest => (Except.ok Async.pending, rest)
  | PEvent.failure e :: rest => (Except.error e, rest)

/-- Modelled from the spec: the idempotent-terminal wrapper (`Fuse` of
`futures-util`, whose source is not part of the files under study; spec
section 4.1).  It remembers whether the wrapped source has signaled
completion (`done`), returns completion again without re-invoking the
source once `done`, and passes failures through without counting them as
completion.  The `polls` field is pure instrumentation counting how often
the wrapper has been queried, so that "the source is queried exactly once /
not at all" is observable in theorems. -/
structure Fuse (α ε : Type) where
  events : List (PEvent α ε)
  done : Bool
  polls : Nat
deriving DecidableEq

/-- Modelled from the spec: one poll of the terminal wrapper (spec section
4.1).  If completion was already observed, report completion again without
touching the underlying source; otherwise delegate and record a completion
outcome in `done`. -/
def Fuse.pollNext {α ε : Type} (f : Fuse α ε) :
    Except ε (Async (Option α)) × Fuse α ε :=
  if f.done then
    (Except.ok (Async.ready none), { f with polls := f.polls + 1 })
  else
    match pollList f.events with
    | (Except.ok (Async.ready none), rest) =>
        (Except.ok (Async.ready none),
         { events := rest, done := true, polls := f.polls + 1 })
    | (r, rest) =>
        (r, { events := rest, done := false, polls := f.polls + 1 })

/-- Modelled from the spec: `Fuse::is_done`, a pure query of whether
completion has been observed (spec section 4.1). -/
def Fuse.is_done {α ε : Type} (f : Fuse α ε) : Bool := f.done

/-- Wrap a source in the terminal wrapper, as `stream.fuse()` does. -/
def Fuse.new {α ε : Type} (events : List (PEvent α ε)) : Fuse α ε :=
  { events := events, done := false, polls := 0 }

/-- The per-side refresh step, translated from `enqueue` in
`zip_latest.rs`.  Returns the reported freshness (or a propagated error),
the updated slot, and the updated wrapped source. -/
def enqueue {α ε : Type} (stream : Fuse α ε) (queued : Option α)
    (queued_fresh : Bool) : Except ε Bool × Option α × Fuse α ε :=
  if queued.isNone || !queued_fresh then
    match Fuse.pollNext stream with
    | (Except.ok (Async.ready (some a)), s) => (Except.ok true, some a, s)
    | (Except.ok (Async.ready none), s) => (Except.ok queued_fresh, queued, s)
    | (Except.ok Async.pending, s) => (Except.ok queued_fresh, queued, s)
    | (Except.error e, s) => (Except.error e, queued, s)
  else
    (Except.ok queued_fresh, queued, stream)

/-- State of the adapter, translated from the `ZipLatest` struct. -/
structure ZipLatest (α β ε : Type) where
  stream1 : Fuse α ε
  stream2 : Fuse β ε
  queued1 : Option α
  queued1_fresh : Bool
  queued2 : Option β
  queued2_fresh : Bool
deriving DecidableEq

/-- Construct the adapter from two sources, translated from `new` in
`zip_latest.rs`: both sources are fused, both slots start empty and not
fresh. -/
def ZipLatest.new {α β ε : Type} (es1 : List (PEvent α ε))
    (es2 : List (PEvent β ε)) : ZipLatest α β ε :=
  { stream1 := Fuse.new es1
    stream2 := Fuse.new es2
    queued1 := none
    queued1_fresh := false
    queued2 := none
    queued2_fresh := false }

/-- The `done` condition computed by `ZipLatest::poll_next` after both
refresh steps: both sides finished, or one side finished with its slot
still empty. -/
def doneCond {α β ε : Type} (s1 : Fuse α ε) (s2 : Fuse β ε)
    (q1 : Option α) (q2 : Option β) : Bool :=
  (s1.is_done && s2.is_done) || (s1.is_done && q1.isNone)
    || (s2.is_done && q2.isNone)

/-- One poll of the adapter, translated from `ZipLatest::poll_next`:
refresh side 1 then side 2 (an error from either aborts the poll,
propagating the partially updated state just as the Rust `?` operator
leaves `self`), then decide between emitting a duplicated pair, signaling
completion, and signaling not-ready. -/
def ZipLatest.pollNext {α β ε : Type} (z : ZipLatest α β ε) :
    Except ε (Async (Option (α × β))) × ZipLatest α β ε :=
  match enqueue z.stream1 z.queued1 z.queued1_fresh with
  | (Except.error e, q1, s1) =>
      (Except.error e, { z with stream1 := s1, queued1 := q1 })
  | (Except.ok f1, q1, s1) =>
      match enqueue z.stream2 z.queued2 z.queued2_fresh with
      | (Except.error e, q2, s2) =>
          (Except.error e,
           { z with stream1 := s1, queued1 := q1, queued1_fresh := f1,
                    stream2 := s2, queued2 := q2 })
      | (Except.ok f2, q2, s2) =>
          let fresh := f1 || f2
          let done := doneCond s1 s2 q1 q2
          match q1, q2, fresh with
          | some item1, some item2, true =>
              (Except.ok (Async.ready (some (item1, item2))),
               { stream1 := s1, stream2 := s2, queued1 := some item1,
                 queued1_fresh := false, queued2 := some item2,
                 queued2_fresh := false })
          | q1', q2', _ =>
              let st : ZipLatest α β ε :=
                { stream1 := s1, stream2 := s2, queued1 := q1',
                  queued1_fresh := f1, queued2 := q2', queued2_fresh := f2 }
              if done then (Except.ok (Async.ready none), st)
              else (Except.ok Async.pending, st)

/-- The state after polling the adapter `n` times, discarding outcomes. -/
def pollIter {α β ε : Type} : Nat → ZipLatest α β ε → ZipLatest α β ε
  | 0, z => z
  | n + 1, z => pollIter n (z.pollNext).2

/-- Drive the adapter like the tests' `block_on(collect())`: poll
repeatedly (an immediate re-poll on `pending` reflects the tests' wake-on-
pending harness), gather emitted pairs until completion, stop on an error.
`none` means the fuel ran out before the stream settled. -/
def drive {α β ε : Type} :
    Nat → ZipLatest α β ε → Option (Except ε (List (α × β)))
  | 0, _ => none
  | n + 1, z =>
      match z.pollNext with
      | (Except.error e, _) => some (Except.error e)
      | (Except.ok (Async.ready none), _) => some (Except.ok [])
      | (Except.ok (Async.ready (some p)), z') =>
          match drive n z' with
          | some (Except.ok l) => some (Except.ok (p :: l))
          | r => r
      | (Except.ok Async.pending, z') => drive n z'

/-- An always-ready finite source producing exactly the given items, as
`stream::iter_ok` builds one in the tests. -/
def ofItems {α ε : Type} (l : List α) : List (PEvent α ε) :=
  l.map PEvent.item

/-- The freshness invariant of the adapter state: a slot whose freshness
flag is set holds a value. -/
def freshInv {α β ε : Type} (z : ZipLatest α β ε) : Prop :=
  (z.queued1_fresh = true → z.queued1.isSome = true)
  ∧ (z.queued2_fresh = true → z.queued2.isSome = true)

/-- States from which every further poll can only report completion or an
error: one side finished with an empty slot, or both sides finished with
both freshness flags clear. -/
def terminalInv {α β ε : Type} (z : ZipLatest α β ε) : Prop :=
  (z.stream1.done = true ∧ z.queued1 = none)
  ∨ (z.stream2.done = true ∧ z.queued2 = none)
  ∨ (z.stream1.done = true ∧ z.stream2.done = true
      ∧ z.queued1_fresh = false ∧ z.queued2_fresh = false)

theorem Fuse.pollNext_of_done {α ε : Type} (f : Fuse α ε)
    (h : f.done = true) :
    f.pollNext = (Except.ok (Async.ready none),
      { f with polls := f.polls + 1 }) := by
  simp [Fuse.pollNext, h]

theorem Fuse.pollNext_polls {α ε : Type} (f : Fuse α ε) :
    (f.pollNext).2.polls = f.polls + 1 := by
  unfold Fuse.pollNext
  split
  · rfl
  · rcases hp : pollList f.events with ⟨r, rest⟩
    rcases r with r | r
    · simp [hp]
    · rcases r with x | _
      · rcases x with _ | a <;> simp [hp]
      · simp [hp]

theorem enqueue_skip {α ε : Type} (stream : Fuse α ε) (a : α)
    (queued : Option α) (fresh : Bool) (ha : queued = some a)
    (hf : fresh = true) :
    enqueue stream queued fresh = (Except.ok true, some a, stream) := by
  subst ha hf
  simp [enqueue]

theorem enqueue_ok_cases {α ε : Type} (stream : Fuse α ε)
    (queued : Option α) (fresh f' : Bool) (q' : Option α) (s' : Fuse α ε)
    (h : enqueue stream queued fresh = (Except.ok f', q', s')) :
    (f' = true ∧ q'.isSome = true) ∨ (f' = fresh ∧ q' = queued) := by
  unfold enqueue at h
  by_cases hc : (queued.isNone || !fresh) = true
  · rw [if_pos hc] at h
    rcases hp : Fuse.pollNext stream with ⟨r, s⟩
    rcases r with r | r
    · rw [hp] at h
      simp at h
    · rcases r with x | _
      · rcases x with _ | a
        · rw [hp] at h
          simp at h
          right
          exact ⟨h.1.symm, h.2.1.symm⟩
        · rw [hp] at h
          simp at h
          left
          refine ⟨h.1, ?_⟩
          rw [← h.2.1]
          rfl
      · rw [hp] at h
        simp at h
        right
        exact ⟨h.1.symm, h.2.1.symm⟩
  · rw [if_neg hc] at h
    simp at h
    right
    exact ⟨h.1.symm, h.2.1.symm⟩

theorem enqueue_err_queued {α ε : Type} (stream : Fuse α ε)
    (queued : Option α) (fresh : Bool) (e : ε) (q' : Option α)
    (s' : Fuse α ε)
    (h : enqueue stream queued fresh = (Except.error e, q', s')) :
    q' = queued := by
  unfold enqueue at h
  by_cases hc : (queued.isNone || !fresh) = true
  · rw [if_pos hc] at h
    rcases hp : Fuse.pollNext stream with ⟨r, s⟩
    rcases r with r | r
    · rw [hp] at h
      simp at h
      exact h.2.1.symm
    · rcases r with x | _
      · rcases x with _ | a <;> rw [hp] at h <;> simp at h
      · rw [hp] at h
        simp at h
  · rw [if_neg hc] at h
    simp at h

theorem enqueue_of_done {α ε : Type} (stream : Fuse α ε)
    (queued : Option α) (fresh : Bool) (h : stream.done = true) :
    ∃ s', enqueue stream queued fresh = (Except.ok fresh, queued, s')
      ∧ s'.done = true := by
  unfold enqueue
  by_cases hc : (queued.isNone || !fresh) = true
  · rw [if_pos hc, Fuse.pollNext_of_done stream h]
    exact ⟨{ stream with polls := stream.polls + 1 }, rfl, h⟩
  · rw [if_neg hc]
    simp at hc
    exact ⟨stream, by rw [hc.2], h⟩

theorem pollNext_err1 {α β ε : Type} (z : ZipLatest α β ε) (e : ε)
    (q1 : Option α) (s1 : Fuse α ε)
    (h : enqueue z.stream1 z.queued1 z.queued1_fresh
      = (Except.error e, q1, s1)) :
    z.pollNext = (Except.error e, { z with stream1 := s1, queued1 := q1 }) := by
  unfold ZipLatest.pollNext
  rw [h]

theorem pollNext_err2 {α β ε : Type} (z : ZipLatest α β ε) (f1 : Bool)
    (q1 : Option α) (s1 : Fuse α ε) (e : ε) (q2 : Option β) (s2 : Fuse β ε)
    (h1 : enqueue z.stream1 z.queued1 z.queued1_fresh
      = (Except.ok f1, q1, s1))
    (h2 : enqueue z.stream2 z.queued2 z.queued2_fresh
      = (Except.error e, q2, s2)) :
    z.pollNext = (Except.error e,
      { z with stream1 := s1, queued1 := q1, queued1_fresh := f1,
               stream2 := s2, queued2 := q2 }) := by
  unfold ZipLatest.pollNext
  rw [h1, h2]

theorem pollNext_emit {α β ε : Type} (z : ZipLatest α β ε) (f1 f2 : Bool)
    (a : α) (b : β) (s1 : Fuse α ε) (s2 : Fuse β ε)
    (h1 : enqueue z.stream1 z.queued1 z.queued1_fresh
      = (Except.ok f1, some a, s1))
    (h2 : enqueue z.stream2 z.queued2 z.queued2_fresh
      = (Except.ok f2, some b, s2))
    (hf : (f1 || f2) = true) :
    z.pollNext = (Except.ok (Async.ready (some (a, b))),
      { stream1 := s1, stream2 := s2, queued1 := some a,
        queued1_fresh := false, queued2 := some b,
        queued2_fresh := false }) := by
  unfold ZipLatest.pollNext
  rw [h1, h2]
  simp [hf]

theorem pollNext_noemit {α β ε : Type} (z : ZipLatest α β ε) (f1 f2 : Bool)
    (q1 : Option α) (q2 : Option β) (s1 : Fuse α ε) (s2 : Fuse β ε)
    (h1 : enqueue z.stream1 z.queued1 z.queued1_fresh
      = (Except.ok f1, q1, s1))
    (h2 : enqueue z.stream2 z.queued2 z.queued2_fresh
      = (Except.ok f2, q2, s2))
    (hne : q1 = none ∨ q2 = none ∨ (f1 || f2) = false) :
    z.pollNext =
      (if doneCond s1 s2 q1 q2 then Except.ok (Async.ready none)
       else Except.ok Async.pending,
       { stream1 := s1, stream2 := s2, queued1 := q1, queued1_fresh := f1,
         queued2 := q2, queued2_fresh := f2 }) := by
  unfold ZipLatest.pollNext
  rw [h1, h2]
  rcases hne with h | h | h
  · subst h
    cases q2 <;> simp <;> split <;> rfl
  · subst h
    cases q1 <;> simp <;> split <;> rfl
  · cases q1 <;> cases q2 <;> simp [h] <;> split <;> rfl

theorem pollNext_ready_none_inv {α β ε : Type} (z z' : ZipLatest α β ε)
    (h : z.pollNext = (Except.ok (Async.ready none), z')) :
    ∃ f1 q1 s1 f2 q2 s2,
      enqueue z.stream1 z.queued1 z.queued1_fresh = (Except.ok f1, q1, s1)
      ∧ enqueue z.stream2 z.queued2 z.queued2_fresh = (Except.ok f2, q2, s2)
      ∧ doneCond s1 s2 q1 q2 = true
      ∧ (q1 = none ∨ q2 = none ∨ (f1 || f2) = false)
      ∧ z' = { stream1 := s1, stream2 := s2, queued1 := q1,
               queued1_fresh := f1, queued2 := q2, queued2_fresh := f2 } := by
  rcases he1 : enqueue z.stream1 z.queued1 z.queued1_fresh with ⟨r1, q1, s1⟩
  rcases r1 with e | f1
  · rw [pollNext_err1 z e q1 s1 he1] at h
    simp at h
  · rcases he2 : enqueue z.stream2 z.queued2 z.queued2_fresh with ⟨r2, q2, s2⟩
    rcases r2 with e | f2
    · rw [pollNext_err2 z f1 q1 s1 e q2 s2 he1 he2] at h
      simp at h
    · refine ⟨f1, q1, s1, f2, q2, s2, rfl, rfl, ?_⟩
      have hne : q1 = none ∨ q2 = none ∨ (f1 || f2) = false := by
        rcases q1 with _ | a
        · exact Or.inl rfl
        · rcases q2 with _ | b
          · exact Or.inr (Or.inl rfl)
          · rcases hf : f1 || f2 with _ | _
            · exact Or.inr (Or.inr rfl)
            · rw [pollNext_emit z f1 f2 a b s1 s2 he1 he2 hf] at h
              simp at h
      rw [pollNext_noemit z f1 f2 q1 q2 s1 s2 he1 he2 hne] at h
      by_cases hd : doneCond s1 s2 q1 q2 = true
      · rw [if_pos hd] at h
        simp at h
        exact ⟨hd, hne, h.symm⟩
      · rw [if_neg hd] at h
        simp at h

theorem pollNext_emit_inv {α β ε : Type} (z z' : ZipLatest α β ε)
    (a : α) (b : β)
    (h : z.pollNext = (Except.ok (Async.ready (some (a, b))), z')) :
    ∃ f1 s1 f2 s2,
      enqueue z.stream1 z.queued1 z.queued1_fresh
        = (Except.ok f1, some a, s1)
      ∧ enqueue z.stream2 z.queued2 z.queued2_fresh
        = (Except.ok f2, some b, s2)
      ∧ (f1 || f2) = true
      ∧ z' = { stream1 := s1, stream2 := s2, queued1 := some a,
               queued1_fresh := false, queued2 := some b,
               queued2_fresh := false } := by
  rcases he1 : enqueue z.stream1 z.queued1 z.queued1_fresh with ⟨r1, q1, s1⟩
  rcases r1 with e | f1
  · rw [pollNext_err1 z e q1 s1 he1] at h
    simp at h
  · rcases he2 : enqueue z.stream2 z.queued2 z.queued2_fresh with ⟨r2, q2, s2⟩
    rcases r2 with e | f2
    · rw [pollNext_err2 z f1 q1 s1 e q2 s2 he1 he2] at h
      simp at h
    · rcases q1 with _ | a'
      · rw [pollNext_noemit z f1 f2 none q2 s1 s2 he1 he2 (Or.inl rfl)] at h
        by_cases hd : doneCond s1 s2 none q2 = true
        · rw [if_pos hd] at h
          simp at h
        · rw [if_neg hd] at h
          simp at h
      · rcases q2 with _ | b'
        · rw [pollNext_noemit z f1 f2 (some a') none s1 s2 he1 he2
            (Or.inr (Or.inl rfl))] at h
          by_cases hd : doneCond s1 s2 (some a') none = true
          · rw [if_pos hd] at h
            simp at h
          · rw [if_neg hd] at h
            simp at h
        · rcases hf : f1 || f2 with _ | _
          · rw [pollNext_noemit z f1 f2 (some a') (some b') s1 s2 he1 he2
              (Or.inr (Or.inr hf))] at h
            by_cases hd : doneCond s1 s2 (some a') (some b') = true
            · rw [if_pos hd] at h
              simp at h
            · rw [if_neg hd] at h
              simp at h
          · rw [pollNext_emit z f1 f2 a' b' s1 s2 he1 he2 hf] at h
            simp at h
            rcases h with ⟨⟨ha, hb⟩, hz⟩
            subst ha hb
            exact ⟨f1, s1, f2, s2, rfl, rfl, hf, hz.symm⟩

theorem enqueue_fresh_some {α ε : Type} (stream : Fuse α ε)
    (queued : Option α) (fresh f' : Bool) (q' : Option α) (s' : Fuse α ε)
    (hyp : fresh = true → queued.isSome = true)
    (h : enqueue stream queued fresh = (Except.ok f', q', s')) :
    f' = true → q'.isSome = true := by
  intro hf
  rcases enqueue_ok_cases stream queued fresh f' q' s' h with ⟨_, hs⟩ | ⟨hfr, hq⟩
  · exact hs
  · subst hq
    apply hyp
    rw [← hfr]
    exact hf

theorem freshInv_new {α β ε : Type} (es1 : List (PEvent α ε))
    (es2 : List (PEvent β ε)) : freshInv (ZipLatest.new es1 es2) := by
  simp [freshInv, ZipLatest.new]

theorem freshInv_poll {α β ε : Type} (z : ZipLatest α β ε)
    (hz : freshInv z) : freshInv (z.pollNext).2 := by
  rcases he1 : enqueue z.stream1 z.queued1 z.queued1_fresh with ⟨r1, q1, s1⟩
  rcases r1 with e | f1
  · rw [pollNext_err1 z e q1 s1 he1]
    have hq := enqueue_err_queued z.stream1 z.queued1 z.queued1_fresh e q1 s1 he1
    subst hq
    exact ⟨hz.1, hz.2⟩
  · rcases he2 : enqueue z.stream2 z.queued2 z.queued2_fresh with ⟨r2, q2, s2⟩
    rcases r2 with e | f2
    · rw [pollNext_err2 z f1 q1 s1 e q2 s2 he1 he2]
      have hq := enqueue_err_queued z.stream2 z.queued2 z.queued2_fresh e q2 s2 he2
      subst hq
      exact ⟨enqueue_fresh_some z.stream1 z.queued1 z.queued1_fresh f1 q1 s1 hz.1 he1,
        hz.2⟩
    · rcases q1 with _ | a
      · rw [pollNext_noemit z f1 f2 none q2 s1 s2 he1 he2 (Or.inl rfl)]
        refine ⟨?_, ?_⟩
        · split <;>
            exact enqueue_fresh_some z.stream1 z.queued1 z.queued1_fresh f1 none s1 hz.1 he1
        · split <;>
            exact enqueue_fresh_some z.stream2 z.queued2 z.queued2_fresh f2 q2 s2 hz.2 he2
      · rcases q2 with _ | b
        · rw [pollNext_noemit z f1 f2 (some a) none s1 s2 he1 he2 (Or.inr (Or.inl rfl))]
          refine ⟨?_, ?_⟩
          · split <;> intro _ <;> rfl
          · split <;>
              exact enqueue_fresh_some z.stream2 z.queued2 z.queued2_fresh f2 none s2 hz.2 he2
        · rcases hf : f1 || f2 with _ | _
          · rw [pollNext_noemit z f1 f2 (some a) (some b) s1 s2 he1 he2
              (Or.inr (Or.inr hf))]
            refine ⟨?_, ?_⟩ <;> split <;> intro _ <;> rfl
          · rw [pollNext_emit z f1 f2 a b s1 s2 he1 he2 hf]
            exact ⟨fun _ => rfl, fun _ => rfl⟩

theorem freshInv_pollIter {α β ε : Type} (n : Nat) (z : ZipLatest α β ε)
    (hz : freshInv z) : freshInv (pollIter n z) := by
  induction n generalizing z with
  | zero => exact hz
  | succ n ih => exact ih (z.pollNext).2 (freshInv_poll z hz)

theorem terminalInv_of_ready_none {α β ε : Type} (z z' : ZipLatest α β ε)
    (h : z.pollNext = (Except.ok (Async.ready none), z')) :
    terminalInv z' := by
  obtain ⟨f1, q1, s1, f2, q2, s2, he1, he2, hdC, hne, hz'⟩ :=
    pollNext_ready_none_inv z z' h
  subst hz'
  simp only [doneCond, Fuse.is_done, Bool.or_eq_true, Bool.and_eq_true,
    Option.isNone_iff_eq_none] at hdC
  rcases hdC with (⟨h1d, h2d⟩ | ⟨h1d, h1n⟩) | ⟨h2d, h2n⟩
  · rcases hne with hq | hq | hf
    · exact Or.inl ⟨h1d, hq⟩
    · exact Or.inr (Or.inl ⟨h2d, hq⟩)
    · simp only [Bool.or_eq_false_iff] at hf
      exact Or.inr (Or.inr ⟨h1d, h2d, hf.1, hf.2⟩)
  · exact Or.inl ⟨h1d, h1n⟩
  · exact Or.inr (Or.inl ⟨h2d, h2n⟩)

theorem terminalInv_poll {α β ε : Type} (z : ZipLatest α β ε)
    (hz : terminalInv z) :
    ((z.pollNext).1 = Except.ok (Async.ready none)
      ∨ ∃ e, (z.pollNext).1 = Except.error e)
    ∧ terminalInv (z.pollNext).2 := by
  rcases hz with ⟨hd1, hq1⟩ | ⟨hd2, hq2⟩ | ⟨hd1, hd2, hf1, hf2⟩
  · obtain ⟨s1', he1, hs1'⟩ :=
      enqueue_of_done z.stream1 z.queued1 z.queued1_fresh hd1
    rcases he2 : enqueue z.stream2 z.queued2 z.queued2_fresh with ⟨r2, q2, s2⟩
    rcases r2 with e | f2
    · rw [pollNext_err2 z z.queued1_fresh z.queued1 s1' e q2 s2 he1 he2]
      exact ⟨Or.inr ⟨e, rfl⟩, Or.inl ⟨hs1', hq1⟩⟩
    · rw [pollNext_noemit z z.queued1_fresh f2 z.queued1 q2 s1' s2 he1 he2
        (Or.inl hq1)]
      have hdC : doneCond s1' s2 z.queued1 q2 = true := by
        simp [doneCond, Fuse.is_done, hs1', hq1]
      rw [if_pos hdC]
      exact ⟨Or.inl rfl, Or.inl ⟨hs1', hq1⟩⟩
  · rcases he1 : enqueue z.stream1 z.queued1 z.queued1_fresh with ⟨r1, q1, s1⟩
    rcases r1 with e | f1
    · rw [pollNext_err1 z e q1 s1 he1]
      exact ⟨Or.inr ⟨e, rfl⟩, Or.inr (Or.inl ⟨hd2, hq2⟩)⟩
    · obtain ⟨s2', he2, hs2'⟩ :=
        enqueue_of_done z.stream2 z.queued2 z.queued2_fresh hd2
      rw [pollNext_noemit z f1 z.queued2_fresh q1 z.queued2 s1 s2' he1 he2
        (Or.inr (Or.inl hq2))]
      have hdC : doneCond s1 s2' q1 z.queued2 = true := by
        simp [doneCond, Fuse.is_done, hs2', hq2]
      rw [if_pos hdC]
      exact ⟨Or.inl rfl, Or.inr (Or.inl ⟨hs2', hq2⟩)⟩
  · obtain ⟨s1', he1, hs1'⟩ :=
      enqueue_of_done z.stream1 z.queued1 z.queued1_fresh hd1
    obtain ⟨s2', he2, hs2'⟩ :=
      enqueue_of_done z.stream2 z.queued2 z.queued2_fresh hd2
    have hne : (z.queued1_fresh || z.queued2_fresh) = false := by
      rw [hf1, hf2]
      rfl
    rw [pollNext_noemit z z.queued1_fresh z.queued2_fresh z.queued1 z.queued2
      s1' s2' he1 he2 (Or.inr (Or.inr hne))]
    have hdC : doneCond s1' s2' z.queued1 z.queued2 = true := by
      simp [doneCond, Fuse.is_done, hs1', hs2']
    rw [if_pos hdC]
    exact ⟨Or.inl rfl, Or.inr (Or.inr ⟨hs1', hs2', hf1, hf2⟩)⟩

theorem terminalInv_pollIter {α β ε : Type} (n : Nat) (z : ZipLatest α β ε)
    (hz : terminalInv z) : terminalInv (pollIter n z) := by
  induction n generalizing z with
  | zero => exact hz
  | succ n ih => exact ih (z.pollNext).2 (terminalInv_poll z hz).2

/-- C1: For every call of the per-side refresh step (`enqueue`) on a
wrapped source, a slot, and a freshness flag: if the slot is empty or its
flag is not fresh, the source is queried exactly once (the wrapper's poll
counter advances by one) and (a) a new item overwrites the slot's value
and the step reports fresh = true, (b) completion or not-ready leaves the
slot unchanged and reports the previous freshness value, (c) a failure is
propagated immediately as an error, aborting the whole poll (a refresh
error on either side becomes the poll's result); if the slot is non-empty
and already fresh, the source is not queried (it is returned untouched)
and the step reports true. -/
theorem enqueue_refresh_step {α β ε : Type} (stream : Fuse α ε)
    (queued : Option α) (fresh : Bool) :
    ((queued = none ∨ fresh = false) →
      (Fuse.pollNext stream).2.polls = stream.polls + 1
      ∧ enqueue stream queued fresh =
          (match (Fuse.pollNext stream).1 with
           | Except.ok (Async.ready (some a)) =>
               (Except.ok true, some a, (Fuse.pollNext stream).2)
           | Except.ok (Async.ready none) =>
               (Except.ok fresh, queued, (Fuse.pollNext stream).2)
           | Except.ok Async.pending =>
               (Except.ok fresh, queued, (Fuse.pollNext stream).2)
           | Except.error e =>
               (Except.error e, queued, (Fuse.pollNext stream).2)))
    ∧ (∀ a, queued = some a → fresh = true →
        enqueue stream queued fresh = (Except.ok true, some a, stream))
    ∧ (∀ (z : ZipLatest α β ε) e q1 s1,
        enqueue z.stream1 z.queued1 z.queued1_fresh
          = (Except.error e, q1, s1) →
        (z.pollNext).1 = Except.error e)
    ∧ (∀ (z : ZipLatest α β ε) f1 q1 s1 e q2 s2,
        enqueue z.stream1 z.queued1 z.queued1_fresh
          = (Except.ok f1, q1, s1) →
        enqueue z.stream2 z.queued2 z.queued2_fresh
          = (Except.error e, q2, s2) →
        (z.pollNext).1 = Except.error e) := by
  refine ⟨?_, ?_, ?_, ?_⟩
  · intro h
    refine ⟨Fuse.pollNext_polls stream, ?_⟩
    have hc : (queued.isNone || !fresh) = true := by
      rcases h with h | h <;> simp [h]
    unfold enqueue
    rw [if_pos hc]
    rcases hp : Fuse.pollNext stream with ⟨r, s⟩
    rcases r with e | r
    · rfl
    · rcases r with x | _
      · rcases x with _ | a <;> rfl
      · rfl
  · intro a ha hf
    exact enqueue_skip stream a queued fresh ha hf
  · intro z e q1 s1 h
    rw [pollNext_err1 z e q1 s1 h]
  · intro z f1 q1 s1 e q2 s2 h1 h2
    rw [pollNext_err2 z f1 q1 s1 e q2 s2 h1 h2]

/-- Witness for C1: at concrete inputs, a queried source advances its
counter and fills the slot; a fresh non-empty slot leaves the source
untouched. -/
theorem enqueue_refresh_step_witness :
    enqueue (Fuse.new ([PEvent.item 3] : List (PEvent Nat Unit))) none false
      = (Except.ok true, some 3, { events := [], done := false, polls := 1 })
    ∧ enqueue (Fuse.new ([PEvent.item 3] : List (PEvent Nat Unit)))
        (some 5) true
      = (Except.ok true, some 5, Fuse.new [PEvent.item 3]) := by
  constructor
  · have h := (enqueue_refresh_step (β := Nat)
      (Fuse.new ([PEvent.item 3] : List (PEvent Nat Unit))) none false).1
      (Or.inl rfl)
    rw [h.2]
    rfl
  · exact (enqueue_refresh_step (β := Nat)
      (Fuse.new ([PEvent.item 3] : List (PEvent Nat Unit))) (some 5) true).2.1
      5 rfl rfl

/-- C2: For every poll of the combined stream, after both refresh steps
report without error, the driver decides exactly as the source does: with
fresh = freshness1 OR freshness2 and done = (side1 finished AND side2
finished) OR (side1 finished AND slot1 empty) OR (side2 finished AND slot2
empty), if both slots are non-empty and fresh it clears both freshness
flags and emits the pair of the slots' current values; otherwise if done
it signals completion (also when one side finished with an empty slot
while the other slot holds a fresh value); otherwise it signals
not-ready. -/
theorem pollNext_decision {α β ε : Type} (z : ZipLatest α β ε)
    (f1 f2 : Bool) (q1 : Option α) (q2 : Option β)
    (s1 : Fuse α ε) (s2 : Fuse β ε)
    (h1 : enqueue z.stream1 z.queued1 z.queued1_fresh
      = (Except.ok f1, q1, s1))
    (h2 : enqueue z.stream2 z.queued2 z.queued2_fresh
      = (Except.ok f2, q2, s2)) :
    (∀ a b, q1 = some a → q2 = some b → (f1 || f2) = true →
      z.pollNext = (Except.ok (Async.ready (some (a, b))),
        { stream1 := s1, stream2 := s2, queued1 := some a,
          queued1_fresh := false, queued2 := some b,
          queued2_fresh := false }))
    ∧ ((q1 = none ∨ q2 = none ∨ (f1 || f2) = false) →
        (s1.is_done && s2.is_done || s1.is_done && q1.isNone
          || s2.is_done && q2.isNone) = true →
        z.pollNext = (Except.ok (Async.ready none),
          { stream1 := s1, stream2 := s2, queued1 := q1,
            queued1_fresh := f1, queued2 := q2, queued2_fresh := f2 }))
    ∧ ((q1 = none ∨ q2 = none ∨ (f1 || f2) = false) →
        (s1.is_done && s2.is_done || s1.is_done && q1.isNone
          || s2.is_done && q2.isNone) = false →
        z.pollNext = (Except.ok Async.pending,
          { stream1 := s1, stream2 := s2, queued1 := q1,
            queued1_fresh := f1, queued2 := q2, queued2_fresh := f2 })) := by
  refine ⟨?_, ?_, ?_⟩
  · intro a b ha hb hf
    subst ha hb
    exact pollNext_emit z f1 f2 a b s1 s2 h1 h2 hf
  · intro hne hd
    have hd' : doneCond s1 s2 q1 q2 = true := hd
    rw [pollNext_noemit z f1 f2 q1 q2 s1 s2 h1 h2 hne, if_pos hd']
  · intro hne hd
    have hd' : doneCond s1 s2 q1 q2 = false := hd
    rw [pollNext_noemit z f1 f2 q1 q2 s1 s2 h1 h2 hne,
      if_neg (by simp [hd'])]

/-- Witness for C2, at the flagged edge case: side 1 finished with an
empty slot while side 2 holds a fresh, never-emitted value; the poll
signals completion. -/
theorem pollNext_decision_witness :
    (ZipLatest.pollNext (⟨⟨[], true, 0⟩, ⟨[], false, 0⟩, none, false,
        some 7, true⟩ : ZipLatest Nat Nat Unit))
      = (Except.ok (Async.ready none),
         ⟨⟨[], true, 1⟩, ⟨[], false, 0⟩, none, false, some 7, true⟩) :=
  (pollNext_decision
    (⟨⟨[], true, 0⟩, ⟨[], false, 0⟩, none, false, some 7, true⟩ :
      ZipLatest Nat Nat Unit)
    false true none (some 7) ⟨[], true, 1⟩ ⟨[], false, 0⟩ rfl rfl).2.1
    (Or.inl rfl) rfl

/-- C3: Invariant preserved by every poll: in every state reachable from a
freshly built adapter, a set freshness flag implies the slot holds a
value; and a fresh, unconsumed slot value is protected: while a slot is
non-empty and fresh, its source is not queried (the wrapped stream is
returned untouched), the value stays in the slot, and the flag stays set
until the value appears in an emitted pair. -/
theorem fresh_slot_invariant {α β ε : Type} :
    (∀ (n : Nat) (es1 : List (PEvent α ε)) (es2 : List (PEvent β ε)),
       freshInv (pollIter n (ZipLatest.new es1 es2)))
    ∧ (∀ (z : ZipLatest α β ε) (a : α),
        z.queued1 = some a → z.queued1_fresh = true →
        (z.pollNext).2.stream1 = z.stream1
        ∧ (z.pollNext).2.queued1 = some a
        ∧ ((z.pollNext).2.queued1_fresh = true
           ∨ ∃ b, (z.pollNext).1 = Except.ok (Async.ready (some (a, b)))))
    ∧ (∀ (z : ZipLatest α β ε) (b : β),
        z.queued2 = some b → z.queued2_fresh = true →
        (z.pollNext).2.stream2 = z.stream2
        ∧ (z.pollNext).2.queued2 = some b
        ∧ ((z.pollNext).2.queued2_fresh = true
           ∨ ∃ a, (z.pollNext).1
               = Except.ok (Async.ready (some (a, b))))) := by
  refine ⟨?_, ?_, ?_⟩
  · intro n es1 es2
    exact freshInv_pollIter n _ (freshInv_new es1 es2)
  · intro z a ha hf
    have he1 := enqueue_skip z.stream1 a z.queued1 z.queued1_fresh ha hf
    rcases he2 : enqueue z.stream2 z.queued2 z.queued2_fresh with ⟨r2, q2, s2⟩
    rcases r2 with e | f2
    · rw [pollNext_err2 z true (some a) z.stream1 e q2 s2 he1 he2]
      exact ⟨rfl, rfl, Or.inl rfl⟩
    · rcases q2 with _ | b
      · rw [pollNext_noemit z true f2 (some a) none z.stream1 s2 he1 he2
          (Or.inr (Or.inl rfl))]
        split <;> exact ⟨rfl, rfl, Or.inl rfl⟩
      · rw [pollNext_emit z true f2 a b z.stream1 s2 he1 he2 rfl]
        exact ⟨rfl, rfl, Or.inr ⟨b, rfl⟩⟩
  · intro z b hb hf
    rcases he1 : enqueue z.stream1 z.queued1 z.queued1_fresh with ⟨r1, q1, s1⟩
    rcases r1 with e | f1
    · rw [pollNext_err1 z e q1 s1 he1]
      exact ⟨rfl, hb, Or.inl hf⟩
    · have he2 := enqueue_skip z.stream2 b z.queued2 z.queued2_fresh hb hf
      rcases q1 with _ | a
      · rw [pollNext_noemit z f1 true none (some b) s1 z.stream2 he1 he2
          (Or.inl rfl)]
        split <;> exact ⟨rfl, rfl, Or.inl rfl⟩
      · rw [pollNext_emit z f1 true a b s1 z.stream2 he1 he2 (by simp)]
        exact ⟨rfl, rfl, Or.inr ⟨a, rfl⟩⟩

/-- Witness for C3: the reachability invariant at a concrete trace, and a
fresh slot value surviving a concrete poll untouched. -/
theorem fresh_slot_invariant_witness :
    freshInv (pollIter 2 (ZipLatest.new (ofItems (ε := Unit) [1, 2])
      (ofItems [5, 6])))
    ∧ (ZipLatest.pollNext (⟨⟨[], false, 0⟩, ⟨[], true, 0⟩, some 4, true,
        none, false⟩ : ZipLatest Nat Nat Unit)).2.queued1 = some 4 :=
  ⟨fresh_slot_invariant.1 2 (ofItems [1, 2]) (ofItems [5, 6]),
   (fresh_slot_invariant.2.1 (⟨⟨[], false, 0⟩, ⟨[], true, 0⟩, some 4, true,
        none, false⟩ : ZipLatest Nat Nat Unit) 4 rfl rfl).2.1⟩

/-- C4 counterexample: with the left source failing between items (the
source file's `zip_with_error_left` scenario), the third poll surfaces the
error, yet the fourth poll emits the pair (2, 2) — pairs are produced
after the failure, refuting "no further pairs are produced after it". -/
theorem error_then_pair_cex :
    (ZipLatest.pollNext (pollIter 2 (ZipLatest.new
      [PEvent.item 0, PEvent.item 1, PEvent.failure (), PEvent.item 2]
      (ofItems [0, 1, 2])))).1 = Except.error ()
    ∧ (ZipLatest.pollNext (pollIter 3 (ZipLatest.new
      [PEvent.item 0, PEvent.item 1, PEvent.failure (), PEvent.item 2]
      (ofItems [0, 1, 2])))).1
        = Except.ok (Async.ready (some (2, 2))) := ⟨rfl, rfl⟩

/-- C4 (amended): if either side fails during a poll, the failure is
surfaced to the caller as that poll's error result (the first failure
observed is forwarded); the adapter makes no guarantee about subsequent
polls, which may emit further pairs. -/
theorem error_surfaced {α β ε : Type} (z : ZipLatest α β ε) :
    (∀ e q1 s1,
      enqueue z.stream1 z.queued1 z.queued1_fresh = (Except.error e, q1, s1) →
      (z.pollNext).1 = Except.error e)
    ∧ (∀ f1 q1 s1 e q2 s2,
        enqueue z.stream1 z.queued1 z.queued1_fresh
          = (Except.ok f1, q1, s1) →
        enqueue z.stream2 z.queued2 z.queued2_fresh
          = (Except.error e, q2, s2) →
        (z.pollNext).1 = Except.error e) := by
  constructor
  · intro e q1 s1 h
    rw [pollNext_err1 z e q1 s1 h]
  · intro f1 q1 s1 e q2 s2 h1 h2
    rw [pollNext_err2 z f1 q1 s1 e q2 s2 h1 h2]

/-- Witness for C4: a concrete failing left source makes the first poll
return its error. -/
theorem error_surfaced_witness :
    (ZipLatest.pollNext (ZipLatest.new
      ([PEvent.failure ()] : List (PEvent Nat Unit))
      ([] : List (PEvent Nat Unit)))).1 = Except.error () :=
  (error_surfaced (ZipLatest.new
      ([PEvent.failure ()] : List (PEvent Nat Unit))
      ([] : List (PEvent Nat Unit)))).1 () none ⟨[], false, 1⟩ rfl

/-- C5 counterexample: left source empty, right source pending then
failing.  The first poll reports completion (left finished with an empty
slot), but the second poll reports the right source's error, not
completion — completion is not terminal as claimed. -/
theorem completion_not_terminal_cex :
    (ZipLatest.pollNext (ZipLatest.new ([] : List (PEvent Nat Unit))
      ([PEvent.pending, PEvent.failure ()] : List (PEvent Nat Unit)))).1
      = Except.ok (Async.ready none)
    ∧ (ZipLatest.pollNext (ZipLatest.pollNext (ZipLatest.new
      ([] : List (PEvent Nat Unit))
      ([PEvent.pending, PEvent.failure ()] : List (PEvent Nat Unit)))).2).1
      = Except.error () :=
  ⟨rfl, rfl⟩

/-- C5 (amended): once a poll of the combined stream returns the
completion outcome, every subsequent poll returns either completion or an
error propagated from a source that had not yet finished; no emitted pair
and no not-ready outcome ever follows completion. -/
theorem completion_absorbing {α β ε : Type} (z z' : ZipLatest α β ε)
    (h : z.pollNext = (Except.ok (Async.ready none), z')) (n : Nat) :
    ((pollIter n z').pollNext).1 = Except.ok (Async.ready none)
    ∨ ∃ e, ((pollIter n z').pollNext).1 = Except.error e :=
  (terminalInv_poll (pollIter n z')
    (terminalInv_pollIter n z' (terminalInv_of_ready_none z z' h))).1

/-- Witness for C5: the amended theorem applied to the counterexample
trace, at the poll right after completion. -/
theorem completion_absorbing_witness :
    ((pollIter 0 (ZipLatest.pollNext (ZipLatest.new
        ([] : List (PEvent Nat Unit))
        ([PEvent.pending, PEvent.failure ()] :
          List (PEvent Nat Unit)))).2).pollNext).1
      = Except.ok (Async.ready none)
    ∨ ∃ e, ((pollIter 0 (ZipLatest.pollNext (ZipLatest.new
        ([] : List (PEvent Nat Unit))
        ([PEvent.pending, PEvent.failure ()] :
          List (PEvent Nat Unit)))).2).pollNext).1 = Except.error e :=
  completion_absorbing (ZipLatest.new [] [PEvent.pending, PEvent.failure ()])
    (ZipLatest.pollNext (ZipLatest.new
      [] [PEvent.pending, PEvent.failure ()])).2 rfl 0

/-- C6: zipping always-ready [0,1,2] with [0,1], driven to completion,
produces exactly [(0,0),(1,1),(2,1)]; symmetrically [0,1] with [0,1,2]
produces [(0,0),(1,1),(1,2)] — the exhausted side's last value is reused
from its slot. -/
theorem zip_long_short_result :
    drive 10 (ZipLatest.new (ofItems (ε := Unit) [0, 1, 2])
      (ofItems [0, 1]))
      = some (Except.ok [(0, 0), (1, 1), (2, 1)])
    ∧ drive 10 (ZipLatest.new (ofItems (ε := Unit) [0, 1])
      (ofItems [0, 1, 2]))
      = some (Except.ok [(0, 0), (1, 1), (1, 2)]) := ⟨rfl, rfl⟩

/-- C7: with the left side yielding 0, 1, then not-ready once, then 2,
and the right side yielding 0, 1, 2 steadily, driving the combined stream
to completion produces exactly [(0,0),(1,1),(1,2),(2,2)]: the held-over
value 1 pairs again with the advancing side. -/
theorem zip_yield_left_result :
    drive 10 (ZipLatest.new
      [PEvent.item 0, PEvent.item 1, PEvent.pending, PEvent.item 2]
      (ofItems (ε := Unit) [0, 1, 2]))
      = some (Except.ok [(0, 0), (1, 1), (1, 2), (2, 2)]) := rfl

/-- C8: zipping the equal-length always-ready sequences [0,1,2] and
[0,1,2], driven to completion, produces exactly [(0,0),(1,1),(2,2)]. -/
theorem zip_same_length_result :
    drive 10 (ZipLatest.new (ofItems (ε := Unit) [0, 1, 2])
      (ofItems [0, 1, 2]))
      = some (Except.ok [(0, 0), (1, 1), (2, 2)]) := rfl

/-- C9: for every input sequence S of items, zipping an empty sequence
with S on either side, driven to completion (any positive fuel), produces
an empty result; in particular two empty sequences produce an empty
result. -/
theorem zip_empty_result {α β ε : Type} :
    (∀ (fuel : Nat) (S : List β),
      drive (fuel + 1) (ZipLatest.new ([] : List (PEvent α ε)) (ofItems S))
        = some (Except.ok []))
    ∧ (∀ (fuel : Nat) (S : List α),
      drive (fuel + 1) (ZipLatest.new (ofItems S) ([] : List (PEvent β ε)))
        = some (Except.ok []))
    ∧ (∀ fuel : Nat,
      drive (fuel + 1) (ZipLatest.new ([] : List (PEvent α ε))
        ([] : List (PEvent β ε))) = some (Except.ok [])) := by
  refine ⟨?_, ?_, ?_⟩
  · intro fuel S
    cases S <;> rfl
  · intro fuel S
    cases S <;> rfl
  · intro fuel
    rfl

/-- C10: in every poll in which the combined stream emits a pair, the
emitted values are exactly the values stored in the two slots after the
refresh phase, both slots still hold them afterwards, and only the two
freshness flags are cleared. -/
theorem emit_frame {α β ε : Type} (z z' : ZipLatest α β ε) (a : α) (b : β)
    (h : z.pollNext = (Except.ok (Async.ready (some (a, b))), z')) :
    z'.queued1 = some a ∧ z'.queued2 = some b
    ∧ z'.queued1_fresh = false ∧ z'.queued2_fresh = false
    ∧ ∃ f1 s1 f2 s2,
        enqueue z.stream1 z.queued1 z.queued1_fresh
          = (Except.ok f1, some a, s1)
        ∧ enqueue z.stream2 z.queued2 z.queued2_fresh
          = (Except.ok f2, some b, s2)
        ∧ z'.stream1 = s1 ∧ z'.stream2 = s2 ∧ (f1 || f2) = true := by
  obtain ⟨f1, s1, f2, s2, he1, he2, hf, hz'⟩ := pollNext_emit_inv z z' a b h
  subst hz'
  exact ⟨rfl, rfl, rfl, rfl, f1, s1, f2, s2, he1, he2, rfl, rfl, hf⟩

/-- Witness for C10: the first poll of zipping singleton streams [1] and
[2] emits (1, 2) while both slots keep their values with cleared flags. -/
theorem emit_frame_witness :
    (ZipLatest.pollNext (ZipLatest.new (ofItems (ε := Unit) [1])
        (ofItems [2]))).2.queued1 = some 1
    ∧ (ZipLatest.pollNext (ZipLatest.new (ofItems (ε := Unit) [1])
        (ofItems [2]))).2.queued1_fresh = false :=
  ⟨(emit_frame (ZipLatest.new (ofItems [1]) (ofItems [2]))
      (ZipLatest.pollNext (ZipLatest.new (ofItems [1])
        (ofItems [2]))).2 1 2 rfl).1,
   (emit_frame (ZipLatest.new (ofItems [1]) (ofItems [2]))
      (ZipLatest.pollNext (ZipLatest.new (ofItems [1])
        (ofItems [2]))).2 1 2 rfl).2.2.1⟩
